import Mathlib

/-!
Verification of the trackeco-backend analysis pipeline (`tasks.py`).

This file shallowly embeds the worker task `analyze_video_with_gemini` and its
helpers (`update_stats_and_upload_transaction`, `handle_team_challenge_progress`,
the Gemini credential rotation loop and the defensive JSON-parse chain) as
executable Lean definitions, and proves the spec claims about them.

Modelling conventions:
* Machine integers from Python are modelled as `Int` (scores, points, streaks,
  progress counters) or `Nat` (list indices, the rotation cursor).
* Firestore documents become Lean structures; a collection becomes an
  association list `List (String × α)` keyed by document id.
* Python dicts built by comprehensions (which let later entries overwrite
  earlier ones) are read with a last-match lookup; dicts with unique keys
  (document fields such as `challengeProgress`) are read with a first-match
  lookup.
* WIB calendar dates (`timestamp.astimezone(WIB_TZ).date()`) are modelled as
  integer day numbers, so "yesterday" is `today - 1`.
* `json.loads` on untrusted model output is an abstract parameter
  `jsonParse : String → Option AIResult`; the surrounding fence-stripping,
  regex extraction and brace-truncation fallbacks are modelled concretely.
* External I/O that can raise is resolved by explicit environment flags: the
  Redis connection, the per-key Gemini calls, and — because the task's try
  block extends past the ledger commit — the post-commit Algolia sync, the
  team-challenge Firestore operations, the final upload re-read, and the GCS
  copy.  The `except` handler of the task is the `taskFail` function.
-/

/-- Status of an upload job document.  The source uses the strings
`PENDING_ANALYSIS`, `PROCESSING_AI`, `COMPLETED`, `FAILED`. -/
inductive JobStatus
  | pending
  | processing
  | completed
  | failed
deriving Repr, DecidableEq

/-- One entry of the `challengeUpdates` list of a parsed AI result.
`none` fields model absent JSON keys (`update.get(...)` returning `None`). -/
structure ChallengeUpdate where
  challengeId : Option String
  isCompleted : Option Bool
  progress : Option Int
deriving Repr, DecidableEq

/-- A parsed AI result (the JSON object returned by Gemini).  Numeric fields
use the `.get(key, 0)` default of the source, so a missing score is `0`.
`error` models `ai_result.get("error")` (a string or absent). -/
structure AIResult where
  baseScore : Int
  effortScore : Int
  creativityScore : Int
  finalScore : Int
  penaltyPoints : Int
  error : Option String
  challengeUpdates : List ChallengeUpdate
  suggestion : Option String
deriving Repr, DecidableEq

/-- An active challenge document from the `challenges` collection, restricted
to the fields the pipeline reads. -/
structure Challenge where
  challengeId : Option String
  progressGoal : Option Int
  bonusPoints : Int
deriving Repr, DecidableEq

/-- A user document, restricted to the fields the pipeline reads and writes.
`lastStreakDate` is the WIB calendar day of `lastStreakTimestamp`. -/
structure User where
  totalPoints : Int
  currentStreak : Int
  maxStreak : Int
  lastStreakDate : Option Int
  hasCompletedFirstUpload : Bool
  referredBy : Option String
  completedChallengeIds : List String
  challengeProgress : List (String × Int)
  activeTeamChallenges : List String
deriving Repr, DecidableEq

/-- An upload job document.  `processedTimestamp` (stamped on claim) carries no
information the claims need and is omitted. -/
structure Job where
  status : JobStatus
  aiResult : Option AIResult
  errorMessage : Option String
deriving Repr, DecidableEq

/-- A team challenge document. `members` maps member user id to a status
string (`"accepted"` / `"pending"`); `status` is the challenge status string
(`"active"` / `"completed"`). -/
structure TeamDoc where
  originalChallengeId : Option String
  status : String
  currentProgress : Int
  progressGoal : Option Int
  members : List (String × String)
  bonusPoints : Int
deriving Repr, DecidableEq

/-- First-match association lookup: Python `dict.get` for dicts whose keys are
unique (Firestore document ids and document map fields). -/
def pyGet {α : Type} (m : List (String × α)) (k : String) : Option α :=
  (m.find? (fun p => decide (p.1 = k))).map (fun p => p.2)

/-- Last-match association lookup: Python `dict.get` for dicts built by a
comprehension, where a later entry for the same key overwrites an earlier
one. -/
def pyGetLast {α : Type} (m : List (String × α)) (k : String) : Option α :=
  (m.reverse.find? (fun p => decide (p.1 = k))).map (fun p => p.2)

/-- Store a value under a key, replacing the existing entry if the key is
present (Python `d[k] = v`). -/
def setAssoc {α : Type} (m : List (String × α)) (k : String) (v : α) : List (String × α) :=
  if m.any (fun p => decide (p.1 = k)) then
    m.map (fun p => if p.1 = k then (k, v) else p)
  else m ++ [(k, v)]

/-- Remove a key (Python `d.pop(k, None)`). -/
def removeKey {α : Type} (m : List (String × α)) (k : String) : List (String × α) :=
  m.filter (fun p => decide (p.1 ≠ k))

/-- `challenge_map = {c.get('challengeId'): c for c in active_challenges}`
followed by `challenge_map.get(challenge_id)`: the last challenge of the
snapshot carrying this id wins. -/
def challengeMapGet (activeChallenges : List Challenge) (cid : String) : Option Challenge :=
  activeChallenges.reverse.find? (fun c => decide (c.challengeId = some cid))

/-- Firestore `ArrayUnion`: append the elements not already present, in order,
without introducing duplicates. -/
def arrayUnion (base addList : List String) : List String :=
  addList.foldl (fun acc x => if x ∈ acc then acc else acc ++ [x]) base

/-- Truthiness of `ai_result.get("error")`: present and a non-empty string. -/
def errTruthy : Option String → Bool
  | none => false
  | some s => decide (s ≠ "")

/-- `score_sum = base_score + effort_score + creativity_score` (tasks.py:462). -/
def scoreSum (r : AIResult) : Int :=
  r.baseScore + r.effortScore + r.creativityScore

/-- The low-confidence detection of tasks.py:463-468. -/
def isLowConfidence (r : AIResult) : Bool :=
  (decide (r.baseScore ≤ 1) && decide (r.effortScore ≤ 1) &&
    decide (r.creativityScore ≤ 1) && decide (r.finalScore ≤ 3))
  || (decide (5 ≤ r.penaltyPoints) && decide (r.finalScore ≤ 2))
  || decide (5 < (scoreSum r - r.finalScore).natAbs)
  || (decide (r.finalScore ≤ 2) && decide (10 ≤ scoreSum r))

/-- The message installed by the low-confidence override (tasks.py:479). -/
def lowConfidenceMessage : String :=
  "No significant eco-friendly action was detected."

/-- The low-confidence override of tasks.py:478-487: force a zero-score
no-action result and drop all challenge updates. -/
def overrideResult (r : AIResult) : AIResult :=
  { r with
    error := some lowConfidenceMessage
    finalScore := 0
    baseScore := 0
    effortScore := 0
    creativityScore := 0
    penaltyPoints := 0
    challengeUpdates := []
    suggestion := none }

/-- Accumulator of the challenge-update loop of the ledger transaction
(`newly_completed_ids`, `bonus_points`, `challenge_progress`). -/
structure ChalLoop where
  newlyCompleted : List String
  bonus : Int
  progress : List (String × Int)
deriving Repr, DecidableEq

/-- One iteration of the challenge-update loop (tasks.py:147-166).  An update
with a falsy id (absent or empty), an id already completed by the user, or an
id absent from the active-challenge snapshot is skipped. -/
def applyChallengeUpdate (userCompletedIds : List String) (activeChallenges : List Challenge)
    (st : ChalLoop) (u : ChallengeUpdate) : ChalLoop :=
  match u.challengeId with
  | none => st
  | some cid =>
    if cid = "" then st
    else if cid ∈ userCompletedIds then st
    else
      match challengeMapGet activeChallenges cid with
      | none => st
      | some ch =>
        if u.isCompleted = some true ∧ ch.progressGoal = none then
          { st with
            bonus := st.bonus + ch.bonusPoints
            newlyCompleted := st.newlyCompleted ++ [cid] }
        else
          match u.progress, ch.progressGoal with
          | some inc, some goal =>
            if goal ≤ (pyGet st.progress cid).getD 0 + inc then
              { st with
                bonus := st.bonus + ch.bonusPoints
                newlyCompleted := st.newlyCompleted ++ [cid]
                progress := removeKey st.progress cid }
            else { st with progress := setAssoc st.progress cid ((pyGet st.progress cid).getD 0 + inc) }
          | _, _ => st

/-- The streak logic of tasks.py:168-192, on WIB day numbers. -/
def computeStreak (lastStreakDate : Option Int) (currentStreak : Int) (todayWib : Int) : Int :=
  match lastStreakDate with
  | some lastDate =>
    if lastDate ≠ todayWib then
      if lastDate = todayWib - 1 then currentStreak + 1 else 1
    else currentStreak
  | none => 1

/-- Result of the ledger transaction: the updated user document (if the user
existed), the terminal job fields it writes, and the referral data returned to
the caller. -/
structure TxResult where
  userOut : Option User
  jobStatus : JobStatus
  jobResult : AIResult
  referrerId : Option String
  isFirstUpload : Bool
deriving Repr, DecidableEq

/-- The ledger transaction `update_stats_and_upload_transaction`
(tasks.py:126-227).  A missing user still finalizes the job as COMPLETED with
no ledger mutation; otherwise points, challenge progress, streak and the
first-upload flag are updated atomically and the job is finalized. -/
def update_stats_and_upload_transaction (userDoc : Option User) (aiResult : AIResult)
    (activeChallenges : List Challenge) (todayWib : Int) : TxResult :=
  match userDoc with
  | none => ⟨none, JobStatus.completed, aiResult, none, false⟩
  | some u =>
    let currentPoints := u.totalPoints
    let newScore := aiResult.finalScore
    let loopOut := aiResult.challengeUpdates.foldl
      (applyChallengeUpdate u.completedChallengeIds activeChallenges)
      ⟨[], 0, u.challengeProgress⟩
    let newStreak := computeStreak u.lastStreakDate u.currentStreak todayWib
    let isFirstUpload := !u.hasCompletedFirstUpload
    let referrerId := if isFirstUpload then u.referredBy else none
    let u1 : User :=
      { u with
        totalPoints := currentPoints + newScore + loopOut.bonus
        currentStreak := newStreak
        lastStreakDate := some todayWib
        challengeProgress := loopOut.progress
        maxStreak := if u.maxStreak < newStreak then newStreak else u.maxStreak
        hasCompletedFirstUpload := if isFirstUpload then true else u.hasCompletedFirstUpload
        completedChallengeIds :=
          if loopOut.newlyCompleted = [] then u.completedChallengeIds
          else arrayUnion u.completedChallengeIds loopOut.newlyCompleted }
    ⟨some u1, JobStatus.completed, aiResult, referrerId, isFirstUpload⟩

/-- Mutable state of the pipeline: the upload job document, the `users`
collection, the active-challenge snapshot, the `teamChallenges` collection,
GCS blob locations, the shared Redis rotation cursor, and the list of
dispatched `award_bonus_points` tasks `(userId, amount)`. -/
structure PipelineState where
  job : Option Job
  users : List (String × User)
  activeChallenges : List Challenge
  teams : List (String × TeamDoc)
  sourceBlob : Bool
  processedBlob : Bool
  failedBlob : Bool
  cursor : Nat
  payouts : List (String × Int)
deriving Repr, DecidableEq

/-- `{p['challengeId']: p['progress'] for p in challenge_updates if 'progress' in p}`
(tasks.py:239).  An entry with a `progress` key but no `challengeId` key would
raise a `KeyError` in the source; the model drops such entries (no claim
exercises them). -/
def progressUpdatesMap (updates : List ChallengeUpdate) : List (String × Int) :=
  updates.filterMap (fun u =>
    match u.progress, u.challengeId with
    | some p, some cid => some (cid, p)
    | _, _ => none)

/-- Member ids with status `"accepted"` (tasks.py:268). -/
def acceptedMemberIds (c : TeamDoc) : List String :=
  (c.members.filter (fun m => decide (m.2 = "accepted"))).map (fun m => m.1)

/-- Result of the per-team-document transaction: the document to write back
and the value returned to the caller (the pre-update snapshot on
completion). -/
structure TeamTxResult where
  updatedDoc : Option TeamDoc
  completedChallenge : Option TeamDoc
deriving Repr, DecidableEq

/-- `update_progress_in_transaction` (tasks.py:245-261).  Adds the reported
increment when the document is active and its base challenge id has a progress
update; on reaching the goal marks the document completed and returns the
snapshot. -/
def update_progress_in_transaction (snapshot : Option TeamDoc)
    (progressUpdates : List (String × Int)) : TeamTxResult :=
  match snapshot with
  | none => ⟨none, none⟩
  | some challenge =>
    match challenge.originalChallengeId with
    | some oid =>
      if challenge.status = "active" then
        match pyGetLast progressUpdates oid with
        | some updateCount =>
          let newProgress := challenge.currentProgress + updateCount
          let goal := challenge.progressGoal.getD 999
          if goal ≤ newProgress then
            ⟨some { challenge with currentProgress := newProgress, status := "completed" },
              some challenge⟩
          else ⟨some { challenge with currentProgress := newProgress }, none⟩
        | none => ⟨some challenge, none⟩
      else ⟨some challenge, none⟩
    | none => ⟨some challenge, none⟩

/-- Remove `teamId` from a member's `activeTeamChallenges` (the
`firestore.ArrayRemove` batch update of tasks.py:280).  The source raises on a
missing member document at `batch.commit()`; the model leaves absent members
untouched (no claim exercises that path). -/
def removeTeamFromUser (users : List (String × User)) (memberId teamId : String) :
    List (String × User) :=
  users.map (fun p =>
    if p.1 = memberId then
      (p.1, { p.2 with
        activeTeamChallenges := p.2.activeTeamChallenges.filter (fun t => decide (t ≠ teamId)) })
    else p)

/-- The completion payout (tasks.py:265-281): split the bonus by integer
(floor) division among accepted members only, dispatch one
`award_bonus_points` task per accepted member, and remove the team challenge
from each accepted member's active list.  Nothing is dispatched when no member
is accepted; the division remainder is dispatched to no one. -/
def teamPayout (teamId : String) (completedChallenge : TeamDoc) (st : PipelineState) :
    PipelineState :=
  let accepted := acceptedMemberIds completedChallenge
  let memberCount := accepted.length
  if 0 < memberCount then
    let pointsPerMember := Int.fdiv completedChallenge.bonusPoints (memberCount : Int)
    let st1 := { st with payouts := st.payouts ++ accepted.map (fun uid => (uid, pointsPerMember)) }
    { st1 with users := accepted.foldl (fun us uid => removeTeamFromUser us uid teamId) st1.users }
  else st

/-- The sequential loop over the user's active team challenges
(tasks.py:242-282); the `break` makes only the first completing team challenge
pay out. -/
def teamChallengeLoop (pmap : List (String × Int)) :
    List String → PipelineState → PipelineState
  | [], st => st
  | teamId :: rest, st =>
    match pyGet st.teams teamId with
    | none => teamChallengeLoop pmap rest st
    | some snapshot =>
      let res := update_progress_in_transaction (some snapshot) pmap
      let st1 :=
        match res.updatedDoc with
        | some d => { st with teams := setAssoc st.teams teamId d }
        | none => st
      match res.completedChallenge with
      | some c => teamPayout teamId c st1
      | none => teamChallengeLoop pmap rest st1

/-- `handle_team_challenge_progress` (tasks.py:229-282). -/
def handle_team_challenge_progress (userId : String) (aiResult : AIResult)
    (st : PipelineState) : PipelineState :=
  if aiResult.challengeUpdates = [] then st
  else
    match pyGet st.users userId with
    | none => st
    | some u =>
      if u.activeTeamChallenges = [] then st
      else
        let pmap := progressUpdatesMap aiResult.challengeUpdates
        if pmap = [] then st
        else teamChallengeLoop pmap u.activeTeamChallenges st

/-- Outcome of one credential-rotation loop: the key indices attempted in
order, the index that succeeded (if any), and the writes performed on the
shared Redis cursor. -/
structure RotationOutcome where
  attempts : List Nat
  success : Option Nat
  cursorWrites : List Nat
deriving Repr, DecidableEq

/-- The body of `for i in range(len(ACTIVE_GEMINI_KEYS))` (tasks.py:331-371):
attempt index `(start_index + i) % N`; on success write the cursor and break;
on failure continue with the next `i` (the final failure re-raises, handled by
the caller). -/
def tryKeys (numKeys startIndex : Nat) (succ : Nat → Bool) :
    List Nat → RotationOutcome
  | [] => ⟨[], none, []⟩
  | i :: rest =>
    let idx := (startIndex + i) % numKeys
    if succ idx then ⟨[idx], some idx, [idx]⟩
    else
      let out := tryKeys numKeys startIndex succ rest
      ⟨idx :: out.attempts, out.success, out.cursorWrites⟩

/-- The credential rotation loop over all `N` keys. -/
def geminiKeyLoop (numKeys startIndex : Nat) (succ : Nat → Bool) : RotationOutcome :=
  tryKeys numKeys startIndex succ (List.range numKeys)

/-- Strip markdown fences (tasks.py:378-391): a ```` ```json ... ``` ````
block, else a generic ``` ... ``` block, else the trimmed text unchanged. -/
def stripFences (text : String) : String :=
  let c := text.trim
  if c.startsWith "```json" && c.endsWith "```" then ((c.drop 7).dropRight 3).trim
  else if c.startsWith "```" && c.endsWith "```" then ((c.drop 3).dropRight 3).trim
  else c

/-- Index of the first occurrence of a character (Python `str.find`, as an
`Option`). -/
def firstIdxOf (s : String) (ch : Char) : Option Nat :=
  s.toList.findIdx? (fun c => decide (c = ch))

/-- Index of the last occurrence of a character (Python `str.rfind`, as an
`Option`). -/
def lastIdxOf (s : String) (ch : Char) : Option Nat :=
  match s.toList.reverse.findIdx? (fun c => decide (c = ch)) with
  | some k => some (s.toList.length - 1 - k)
  | none => none

/-- Character slice `s[a:b]`. -/
def sliceChars (s : String) (a b : Nat) : String :=
  String.mk ((s.toList.drop a).take (b - a))

/-- `re.search(r'\x7b[\s\S]*\x7d', text)` (tasks.py:410): the leftmost-longest
match runs from the first brace-open to the last brace-close, and exists iff a
brace-close occurs after the first brace-open. -/
def regexExtract (text : String) : Option String :=
  match firstIdxOf text '{', lastIdxOf text '}' with
  | some i, some j => if i < j then some (sliceChars text i (j + 1)) else none
  | _, _ => none

/-- The format-fixing fallback (tasks.py:420-440): cut everything before the
first brace-open (only when its index is positive, as in the source) and
everything after the last brace-close (`rfind` returning `-1` truncates a
non-empty string to `""`, as in the source). -/
def fixJson (cleaned : String) : String :=
  let s1 :=
    match firstIdxOf cleaned '{' with
    | some i => if 0 < i then sliceChars cleaned i cleaned.toList.length else cleaned
    | none => cleaned
  match lastIdxOf s1 '}' with
  | some j => if j + 1 < s1.toList.length then sliceChars s1 0 (j + 1) else s1
  | none => if 1 ≤ s1.toList.length then "" else s1

/-- The ordered fallback chain of the response interpreter (tasks.py:393-446):
direct parse of the fence-stripped text, then parse of the regex-extracted
brace span of the original text, then parse of the brace-truncated
fence-stripped text.  `none` means every attempt failed and the task raises a
`ValueError`. -/
def parseChain (jsonParse : String → Option AIResult) (text : String) : Option AIResult :=
  let cleaned := stripFences text
  match jsonParse cleaned with
  | some r => some r
  | none =>
    match regexExtract text with
    | some candidate =>
      match jsonParse candidate with
      | some r => some r
      | none =>
        match jsonParse (fixJson cleaned) with
        | some r => some r
        | none => none
    | none =>
      match jsonParse (fixJson cleaned) with
      | some r => some r
      | none => none

/-- Environment resolving the external nondeterminism of one task run:
today's WIB day, the configured key count, which key indices would succeed,
the model's response text, the abstract `json.loads`, whether Redis is
reachable, and — because the try block of the task extends past the ledger
commit — whether each post-commit side effect raises: the direct Algolia sync
(tasks.py:493; `sync_user_to_algolia` re-raises on failure), the Firestore
operations of the team-challenge aggregator (tasks.py:497), the final
`upload_ref.get()` before the notification (tasks.py:499), and the GCS copy to
the processed area (tasks.py:502-505). -/
structure Env where
  today : Int
  numKeys : Nat
  keySucceeds : Nat → Bool
  responseText : String
  jsonParse : String → Option AIResult
  redisOk : Bool
  algoliaSyncRaises : Bool
  teamOpsRaises : Bool
  finalGetRaises : Bool
  storageMoveRaises : Bool

/-- Result of one task run: the final state, the job-status writes performed
in order, and whether the `except` handler re-raised via `self.retry`. -/
structure RunOutcome where
  state : PipelineState
  statusWrites : List JobStatus
  retried : Bool
deriving Repr, DecidableEq

/-- The `except` handler of the task (tasks.py:507-531): mark the job FAILED
with the error message, move the source blob (when still present) to the
`failed/` area, and re-raise through `self.retry`. -/
def taskFail (st : PipelineState) (writes : List JobStatus) (msg : String) : RunOutcome :=
  let st1 := { st with
    job := st.job.map (fun (j : Job) =>
      { j with status := JobStatus.failed, errorMessage := some msg }) }
  let st2 := if st1.sourceBlob then { st1 with sourceBlob := false, failedBlob := true } else st1
  ⟨st2, writes ++ [JobStatus.failed], true⟩

/-- Mark the job COMPLETED and store the normalized result (the transaction
write of tasks.py:222 and the explicit-error write of tasks.py:476). -/
def finishJob (job : Option Job) (r : AIResult) : Option Job :=
  job.map (fun j => ({ j with status := JobStatus.completed, aiResult := some r } : Job))

/-- Result of the post-parse dispatch: the state and the job-status writes
performed so far, plus the message of an exception raised by a post-commit
side effect that the caller's `except` handler must now process (`none` when
the dispatch completed normally). -/
structure DispatchResult where
  state : PipelineState
  writes : List JobStatus
  exc : Option String
deriving Repr, DecidableEq

/-- The post-parse dispatch (tasks.py:451-497): an explicit error in the
result finalizes the job with no ledger effect; a low-confidence result is
overridden in memory (and nothing is persisted by this branch); otherwise the
ledger transaction commits, then — still inside the task's try block — the
direct Algolia sync (tasks.py:493) may raise, the referral reward is
dispatched, and the team-challenge aggregator (tasks.py:497) may raise.  A
raise inside the aggregator would leave a prefix of its writes committed; the
model resolves that raise to the aggregator's entry, which the claims (all
about the job-status trace and the ledger) do not distinguish. -/
def applyParsedResult (env : Env) (userId : String) (r : AIResult)
    (st : PipelineState) : DispatchResult :=
  if errTruthy r.error then
    ⟨{ st with job := finishJob st.job r }, [JobStatus.completed], none⟩
  else if isLowConfidence r then
    ⟨st, [], none⟩
  else
    let tx := update_stats_and_upload_transaction (pyGet st.users userId) r
      st.activeChallenges env.today
    let users1 :=
      match tx.userOut with
      | some u1 => setAssoc st.users userId u1
      | none => st.users
    let st1 := { st with users := users1, job := finishJob st.job r }
    if env.algoliaSyncRaises then
      ⟨st1, [JobStatus.completed], some "Algolia sync failed."⟩
    else
      let st2 :=
        match tx.referrerId with
        | some rid =>
          if rid ≠ "" ∧ tx.isFirstUpload then
            { st1 with payouts := st1.payouts ++ [(rid, 50)] }
          else st1
        | none => st1
      if env.teamOpsRaises then
        ⟨st2, [JobStatus.completed], some "Team challenge update failed."⟩
      else
        ⟨handle_team_challenge_progress userId r st2, [JobStatus.completed], none⟩

/-- The body of the task after the claim guard (tasks.py:302-531), starting
from a state whose job is already marked PROCESSING_AI. -/
def runMain (env : Env) (userId : String) (st : PipelineState) : RunOutcome :=
  if st.sourceBlob = false then
    taskFail st [JobStatus.processing] "Blob not found."
  else if env.redisOk = false then
    taskFail st [JobStatus.processing] "Cannot connect to Redis for API key management."
  else
    match (geminiKeyLoop env.numKeys st.cursor env.keySucceeds).success with
    | none => taskFail st [JobStatus.processing] "All Gemini API keys failed."
    | some idx =>
      let st1 := { st with cursor := idx }
      match parseChain env.jsonParse env.responseText with
      | none => taskFail st1 [JobStatus.processing] "Could not parse AI response as JSON."
      | some r =>
        let res := applyParsedResult env userId r st1
        match res.exc with
        | some msg => taskFail res.state (JobStatus.processing :: res.writes) msg
        | none =>
          if env.finalGetRaises then
            taskFail res.state (JobStatus.processing :: res.writes)
              "Failed to fetch final upload document."
          else if env.storageMoveRaises then
            taskFail res.state (JobStatus.processing :: res.writes)
              "Failed to copy blob to processed."
          else
            ⟨{ res.state with sourceBlob := false, processedBlob := true },
              JobStatus.processing :: res.writes, false⟩

/-- One run of `analyze_video_with_gemini` (tasks.py:284-531): the claim guard
(tasks.py:296-300) aborts as a no-op unless the job exists in status
PENDING_ANALYSIS; otherwise the job is claimed (status PROCESSING_AI,
tasks.py:302) and the body runs. -/
def analyze_video_with_gemini (env : Env) (userId : String) (st : PipelineState) : RunOutcome :=
  match st.job with
  | none => ⟨st, [], false⟩
  | some j =>
    if j.status = JobStatus.pending then
      runMain env userId { st with job := some { j with status := JobStatus.processing } }
    else ⟨st, [], false⟩

/-- A status that no further pipeline step is expected to change. -/
def isTerminal : JobStatus → Bool
  | JobStatus.completed => true
  | JobStatus.failed => true
  | _ => false

/-- A write trace respects terminal finality when every write that follows a
terminal write repeats it. -/
def traceTerminalFinal : List JobStatus → Bool
  | [] => true
  | s :: rest =>
    (!isTerminal s || rest.all (fun x => decide (x = s))) && traceTerminalFinal rest

/-! ### Helper lemmas -/

/-- The claim guard: a run on a job that is missing-in-action never happens
here, and a run on a job whose status is not PENDING_ANALYSIS returns with no
state change, no status write and no retry. -/
theorem run_guard_noop (env : Env) (userId : String) (st : PipelineState) (j : Job)
    (hj : st.job = some j) (hs : j.status ≠ JobStatus.pending) :
    analyze_video_with_gemini env userId st = ⟨st, [], false⟩ := by
  unfold analyze_video_with_gemini
  rw [hj]
  simp [hs]

theorem tryKeys_success_spec (numKeys startIndex : Nat) (succ : Nat → Bool) :
    ∀ (is : List Nat) (j : Nat),
      (tryKeys numKeys startIndex succ is).success = some j →
      succ j = true ∧ (tryKeys numKeys startIndex succ is).attempts.getLast? = some j := by
  intro is
  induction is with
  | nil => intro j h; simp [tryKeys] at h
  | cons i rest ih =>
    intro j h
    by_cases hs : succ ((startIndex + i) % numKeys) = true
    · unfold tryKeys at h ⊢
      rw [if_pos hs] at h ⊢
      simp at h
      subst h
      exact ⟨hs, rfl⟩
    · unfold tryKeys at h ⊢
      rw [if_neg hs] at h ⊢
      simp only at h
      rcases ih j h with ⟨h1, h2⟩
      refine ⟨h1, ?_⟩
      show ((startIndex + i) % numKeys
        :: (tryKeys numKeys startIndex succ rest).attempts).getLast? = some j
      cases hatt : (tryKeys numKeys startIndex succ rest).attempts with
      | nil => rw [hatt] at h2; simp at h2
      | cons x xs =>
        rw [hatt] at h2
        simpa using h2

theorem tryKeys_cursor_spec (numKeys startIndex : Nat) (succ : Nat → Bool) :
    ∀ (is : List Nat),
      (tryKeys numKeys startIndex succ is).cursorWrites
        = match (tryKeys numKeys startIndex succ is).success with
          | some j => [j]
          | none => [] := by
  intro is
  induction is with
  | nil => simp [tryKeys]
  | cons i rest ih =>
    by_cases hs : succ ((startIndex + i) % numKeys) = true
    · unfold tryKeys; rw [if_pos hs]
    · unfold tryKeys; rw [if_neg hs]; simpa using ih

theorem tryKeys_all_fail_spec (numKeys startIndex : Nat) (succ : Nat → Bool) :
    ∀ (is : List Nat),
      (tryKeys numKeys startIndex succ is).success = none →
      ∀ idx ∈ (tryKeys numKeys startIndex succ is).attempts, succ idx = false := by
  intro is
  induction is with
  | nil => intro _ idx h; simp [tryKeys] at h
  | cons i rest ih =>
    intro hnone idx hmem
    by_cases hs : succ ((startIndex + i) % numKeys) = true
    · unfold tryKeys at hnone; rw [if_pos hs] at hnone; simp at hnone
    · unfold tryKeys at hnone hmem
      rw [if_neg hs] at hnone hmem
      simp only [List.mem_cons] at hmem
      rcases hmem with rfl | hmem
      · simpa using hs
      · exact ih hnone idx hmem

theorem tryKeys_attempts_spec (numKeys startIndex : Nat) (succ : Nat → Bool) :
    ∀ (b a : Nat),
      (tryKeys numKeys startIndex succ (List.range' a b)).attempts
        = (List.range' a (tryKeys numKeys startIndex succ (List.range' a b)).attempts.length).map
            (fun i => (startIndex + i) % numKeys) := by
  intro b
  induction b with
  | zero => intro a; simp [tryKeys]
  | succ b ih =>
    intro a
    rw [List.range'_succ]
    by_cases hs : succ ((startIndex + a) % numKeys) = true
    · unfold tryKeys
      rw [if_pos hs]
      simp [List.range'_succ]
    · unfold tryKeys
      rw [if_neg hs]
      simp only [List.length_cons]
      rw [List.range'_succ]
      simp only [List.map_cons, List.cons.injEq, true_and]
      exact ih (a + 1)

/-! ### Claim C2 -/

/-- Claim C2: a job whose stored status is not PENDING_ANALYSIS at claim time
causes no further work: the task run changes no record (upload job, users,
challenges, team challenges, blobs, cursor, dispatched payouts are all
untouched), performs no status write, and does not retry. -/
theorem claim_C2 (env : Env) (userId : String) (st : PipelineState) (j : Job)
    (hj : st.job = some j) (hs : j.status ≠ JobStatus.pending) :
    analyze_video_with_gemini env userId st = ⟨st, [], false⟩ :=
  run_guard_noop env userId st j hj hs

def jobCompletedW : Job := ⟨JobStatus.completed, none, none⟩

def userW : User := ⟨10, 3, 5, some 6, true, none, [], [], []⟩

def stGuardW : PipelineState := ⟨some jobCompletedW, [("u", userW)], [], [], true, false, false, 0, []⟩

def envW : Env := ⟨7, 4, fun _ => true, "x", fun _ => none, true, false, false, false, false⟩

/-- Witness for C2: replaying a COMPLETED job is a no-op. -/
theorem claim_C2_witness :
    analyze_video_with_gemini envW "u" stGuardW = ⟨stGuardW, [], false⟩ :=
  claim_C2 envW "u" stGuardW jobCompletedW rfl (by decide)

/-! ### Claim C6 -/

/-- Claim C6: within one job the i-th credential attempt uses index
`(startCursor + i) % N` (so after a failure the next attempt uses the next
index mod N), and the shared rotation cursor is written exactly when an
attempt fully succeeds, and only with the index of that succeeding
credential (which is the last attempted one). -/
theorem claim_C6 (numKeys startIndex : Nat) (succ : Nat → Bool) :
    ((geminiKeyLoop numKeys startIndex succ).attempts
        = (List.range' 0 (geminiKeyLoop numKeys startIndex succ).attempts.length).map
            (fun i => (startIndex + i) % numKeys))
    ∧ (∀ j, (geminiKeyLoop numKeys startIndex succ).success = some j →
        succ j = true ∧ (geminiKeyLoop numKeys startIndex succ).attempts.getLast? = some j)
    ∧ ((geminiKeyLoop numKeys startIndex succ).cursorWrites
        = match (geminiKeyLoop numKeys startIndex succ).success with
          | some j => [j]
          | none => [])
    ∧ ((geminiKeyLoop numKeys startIndex succ).success = none →
        ∀ idx ∈ (geminiKeyLoop numKeys startIndex succ).attempts, succ idx = false) := by
  refine ⟨?_, ?_, ?_, ?_⟩
  · have h := tryKeys_attempts_spec numKeys startIndex succ numKeys 0
    rw [geminiKeyLoop, List.range_eq_range']
    exact h
  · intro j h
    rw [geminiKeyLoop, List.range_eq_range'] at h ⊢
    exact tryKeys_success_spec numKeys startIndex succ _ j h
  · rw [geminiKeyLoop, List.range_eq_range']
    exact tryKeys_cursor_spec numKeys startIndex succ _
  · intro h
    rw [geminiKeyLoop, List.range_eq_range'] at h ⊢
    exact tryKeys_all_fail_spec numKeys startIndex succ _ h

def succW : Nat → Bool := fun idx => idx == 0

/-- Witness for C6: with 4 keys and the cursor at 2, where only key 0 works,
the loop succeeds at key 0 after attempts 2, 3, 0, and the only cursor write
is that succeeding index. -/
theorem claim_C6_witness :
    succW 0 = true ∧ (geminiKeyLoop 4 2 succW).attempts.getLast? = some 0 :=
  (claim_C6 4 2 succW).2.1 0 (by decide)

/-! ### Claim C5 -/

theorem computeStreak_none (cs today : Int) : computeStreak none cs today = 1 := rfl

theorem computeStreak_some (d cs today : Int) :
    computeStreak (some d) cs today =
      if d ≠ today then (if d = today - 1 then cs + 1 else 1) else cs := rfl

/-- Claim C5: in the ledger transaction for an existing user, no prior streak
timestamp gives streak 1; a prior WIB date equal to yesterday increments the
prior streak; equal to today leaves it unchanged; any earlier date resets it
to 1; and maxStreak is raised to the new streak exactly when the new streak
exceeds it. -/
theorem claim_C5 (u : User) (r : AIResult) (active : List Challenge) (todayWib : Int)
    (u1 : User)
    (h : (update_stats_and_upload_transaction (some u) r active todayWib).userOut = some u1) :
    (u.lastStreakDate = none → u1.currentStreak = 1)
    ∧ (u.lastStreakDate = some (todayWib - 1) → u1.currentStreak = u.currentStreak + 1)
    ∧ (u.lastStreakDate = some todayWib → u1.currentStreak = u.currentStreak)
    ∧ (∀ d, u.lastStreakDate = some d → d < todayWib - 1 → u1.currentStreak = 1)
    ∧ (u.maxStreak < u1.currentStreak → u1.maxStreak = u1.currentStreak)
    ∧ (u1.currentStreak ≤ u.maxStreak → u1.maxStreak = u.maxStreak) := by
  simp only [update_stats_and_upload_transaction] at h
  injection h with h1
  subst h1
  refine ⟨?_, ?_, ?_, ?_, ?_, ?_⟩
  · intro hl; simp [computeStreak, hl]
  · intro hl
    show computeStreak u.lastStreakDate u.currentStreak todayWib = u.currentStreak + 1
    rw [hl, computeStreak_some,
      if_pos (by omega : todayWib - 1 ≠ todayWib), if_pos rfl]
  · intro hl
    show computeStreak u.lastStreakDate u.currentStreak todayWib = u.currentStreak
    rw [hl, computeStreak_some, if_neg (by omega : ¬todayWib ≠ todayWib)]
  · intro d hl hd
    show computeStreak u.lastStreakDate u.currentStreak todayWib = 1
    rw [hl, computeStreak_some,
      if_pos (by omega : d ≠ todayWib), if_neg (by omega : ¬d = todayWib - 1)]
  · intro hlt
    exact if_pos hlt
  · intro hle
    exact if_neg (not_lt.mpr hle)

def rScoredW : AIResult := ⟨5, 5, 2, 12, 0, none, [], none⟩

def uC5out : User :=
  ((update_stats_and_upload_transaction (some userW) rScoredW [] 7).userOut).getD userW

/-- Witness for C5: with the prior streak date equal to yesterday, the streak
is incremented. -/
theorem claim_C5_witness : uC5out.currentStreak = userW.currentStreak + 1 :=
  (claim_C5 userW rScoredW [] 7 uC5out (by decide)).2.1 (by decide)

/-! ### Claim C3 -/

theorem challengeMapGet_mem (active : List Challenge) (cid : String) (ch : Challenge)
    (h : challengeMapGet active cid = some ch) : ch ∈ active :=
  List.mem_reverse.mp (List.mem_of_find?_eq_some h)

theorem applyChallengeUpdate_bonus_mono (userC : List String) (active : List Challenge)
    (hbp : ∀ c ∈ active, 0 ≤ c.bonusPoints) (st : ChalLoop) (u : ChallengeUpdate) :
    st.bonus ≤ (applyChallengeUpdate userC active st u).bonus := by
  unfold applyChallengeUpdate
  split
  · exact le_refl st.bonus
  · rename_i cid hcid
    split
    · exact le_refl st.bonus
    · split
      · exact le_refl st.bonus
      · split
        · exact le_refl st.bonus
        · rename_i ch heq
          have hb : 0 ≤ ch.bonusPoints := hbp ch (challengeMapGet_mem active cid ch heq)
          split
          · show st.bonus ≤ st.bonus + ch.bonusPoints
            linarith
          · split
            all_goals
              first
                | exact le_refl st.bonus
                | (split
                   · show st.bonus ≤ st.bonus + ch.bonusPoints
                     linarith
                   · exact le_refl st.bonus)

theorem chalLoop_bonus_mono (userC : List String) (active : List Challenge)
    (hbp : ∀ c ∈ active, 0 ≤ c.bonusPoints) (updates : List ChallengeUpdate) :
    ∀ init : ChalLoop,
      init.bonus ≤ (updates.foldl (applyChallengeUpdate userC active) init).bonus := by
  induction updates with
  | nil => intro init; simp
  | cons u rest ih =>
    intro init
    rw [List.foldl_cons]
    exact le_trans (applyChallengeUpdate_bonus_mono userC active hbp init u)
      (ih (applyChallengeUpdate userC active init u))

def rNegW : AIResult := ⟨2, 0, 0, -1, 0, none, [], none⟩

/-- Counterexample to C3 as stated: the transaction adds the reported
`finalScore` to `totalPoints` without clamping, so the AI result
`⟨2, 0, 0, -1, 0, none, [], none⟩` (which the low-confidence filter lets
through unchanged) drops an existing user's totalPoints from 10 to 9. -/
theorem claim_C3_counterexample :
    ((update_stats_and_upload_transaction (some userW) rNegW [] 7).userOut.map
        User.totalPoints = some 9)
    ∧ userW.totalPoints = 10
    ∧ isLowConfidence rNegW = false
    ∧ errTruthy rNegW.error = false := by decide

/-- Claim C3, amended: provided the reported finalScore is nonnegative and
every challenge of the snapshot has nonnegative bonusPoints, the ledger
transaction never decreases an existing user's totalPoints. -/
theorem claim_C3 (u : User) (r : AIResult) (active : List Challenge) (todayWib : Int)
    (hf : 0 ≤ r.finalScore) (hbp : ∀ c ∈ active, 0 ≤ c.bonusPoints) (u1 : User)
    (h : (update_stats_and_upload_transaction (some u) r active todayWib).userOut = some u1) :
    u.totalPoints ≤ u1.totalPoints := by
  simp only [update_stats_and_upload_transaction] at h
  injection h with h1
  subst h1
  have hb := chalLoop_bonus_mono u.completedChallengeIds active hbp r.challengeUpdates
    ⟨[], 0, u.challengeProgress⟩
  show u.totalPoints ≤ u.totalPoints + r.finalScore +
    (r.challengeUpdates.foldl (applyChallengeUpdate u.completedChallengeIds active)
      ⟨[], 0, u.challengeProgress⟩).bonus
  have hb0 : (0 : Int) ≤ (r.challengeUpdates.foldl
      (applyChallengeUpdate u.completedChallengeIds active)
      ⟨[], 0, u.challengeProgress⟩).bonus := hb
  linarith

def uC3out : User :=
  ((update_stats_and_upload_transaction (some userW) rScoredW [] 7).userOut).getD userW

/-- Witness for C3 (amended): a nonnegative-score result does not decrease
totalPoints. -/
theorem claim_C3_witness : userW.totalPoints ≤ uC3out.totalPoints :=
  claim_C3 userW rScoredW [] 7 (by decide) (by simp) uC3out (by decide)

/-! ### Claim C10 -/

/-- A challenge update the ledger loop skips on sight (tasks.py:149-151):
missing (falsy) id, id already completed by the user, or id absent from the
active-challenge snapshot. -/
def skippedUpdate (userCompletedIds : List String) (activeChallenges : List Challenge)
    (u : ChallengeUpdate) : Prop :=
  u.challengeId = none ∨
    ∃ cid, u.challengeId = some cid ∧
      (cid = "" ∨ cid ∈ userCompletedIds ∨ challengeMapGet activeChallenges cid = none)

theorem applyChallengeUpdate_skip (userC : List String) (active : List Challenge)
    (u : ChallengeUpdate) (h : skippedUpdate userC active u) (st : ChalLoop) :
    applyChallengeUpdate userC active st u = st := by
  rcases h with hnone | ⟨cid, hcid, hskip⟩
  · simp [applyChallengeUpdate, hnone]
  · by_cases h1 : cid = ""
    · simp [applyChallengeUpdate, hcid, h1]
    · rcases hskip with h1' | h2 | h3
      · exact absurd h1' h1
      · simp [applyChallengeUpdate, hcid, h1, h2]
      · simp [applyChallengeUpdate, hcid, h1, h3]

/-- Claim C10: a challenge update whose id is missing, already completed by
the user, or absent from the active snapshot leaves the loop state unchanged,
and dropping it from the result's update list leaves the transaction's user
outcome unchanged. -/
theorem claim_C10 (usr : User) (active : List Challenge) (u : ChallengeUpdate)
    (h : skippedUpdate usr.completedChallengeIds active u) :
    (∀ st, applyChallengeUpdate usr.completedChallengeIds active st u = st)
    ∧ (∀ (r : AIResult) (pre post : List ChallengeUpdate) (todayWib : Int),
        r.challengeUpdates = pre ++ u :: post →
        (update_stats_and_upload_transaction (some usr) r active todayWib).userOut
          = (update_stats_and_upload_transaction (some usr)
              { r with challengeUpdates := pre ++ post } active todayWib).userOut) := by
  have hskip := applyChallengeUpdate_skip usr.completedChallengeIds active u h
  refine ⟨hskip, ?_⟩
  intro r pre post todayWib hr
  simp only [update_stats_and_upload_transaction, hr]
  simp only [List.foldl_append, List.foldl_cons, hskip]

def uSkipW : ChallengeUpdate := ⟨some "done-already", none, some 1⟩

/-- Witness for C10: an update for an already-completed challenge id is a
no-op on the loop state. -/
theorem claim_C10_witness :
    applyChallengeUpdate ["done-already"] [] ⟨[], 0, []⟩ uSkipW = ⟨[], 0, []⟩ :=
  (claim_C10 { userW with completedChallengeIds := ["done-already"] } [] uSkipW
    (Or.inr ⟨"done-already", rfl, Or.inr (Or.inl (by decide))⟩)).1 ⟨[], 0, []⟩

/-! ### Claim C1 -/

def jobPendingW : Job := ⟨JobStatus.pending, none, none⟩

def stPendW : PipelineState := ⟨some jobPendingW, [("u", userW)], [], [], true, false, false, 0, []⟩

def envC1W : Env := ⟨7, 4, fun _ => true, "x", fun _ => none, true, false, false, false, false⟩

def rC1HighFinal : AIResult := ⟨1, 1, 1, 5, 0, none, [], none⟩

def rC1LowFinal : AIResult := ⟨1, 1, 1, 2, 0, none, [], none⟩

/-- Counterexample to C1 as stated, at two inputs.  First, component scores
(1,1,1) with reported finalScore 5 are not caught by the low-confidence check
(which requires finalScore ≤ 3 and tolerates a component/final gap of 5), so
the ledger is mutated.  Second, component scores (1,1,1) with finalScore 2 do
trigger the override, but the override branch stores nothing on the upload
record (the job keeps its prior status and result and only the in-memory
result carries the error string). -/
theorem claim_C1_counterexample :
    (rC1HighFinal.baseScore ≤ 1 ∧ rC1HighFinal.effortScore ≤ 1
      ∧ rC1HighFinal.creativityScore ≤ 1 ∧ rC1HighFinal.finalScore ≠ 0
      ∧ (applyParsedResult envC1W "u" rC1HighFinal stPendW).state.users ≠ stPendW.users)
    ∧ (rC1LowFinal.baseScore ≤ 1 ∧ rC1LowFinal.effortScore ≤ 1
      ∧ rC1LowFinal.creativityScore ≤ 1 ∧ rC1LowFinal.finalScore ≠ 0
      ∧ applyParsedResult envC1W "u" rC1LowFinal stPendW = ⟨stPendW, [], none⟩
      ∧ stPendW.job = some jobPendingW ∧ jobPendingW.aiResult = none) := by
  decide

/-- Claim C1, amended: for a parsed result whose component scores are each at
most 1 and whose finalScore is at most 3, the pipeline applies no ledger
mutation; if the result itself reported an error it is stored on the COMPLETED
upload record (carrying that error string), and otherwise the low-confidence
override fires, the overridden in-memory result carries the error string, but
nothing is written back to the upload record by this branch. -/
theorem claim_C1 (env : Env) (userId : String) (r : AIResult) (st : PipelineState)
    (hb : r.baseScore ≤ 1) (he : r.effortScore ≤ 1) (hc : r.creativityScore ≤ 1)
    (hf : r.finalScore ≤ 3) :
    (applyParsedResult env userId r st).state.users = st.users
    ∧ (errTruthy r.error = true →
        applyParsedResult env userId r st
          = ⟨{ st with job := finishJob st.job r }, [JobStatus.completed], none⟩)
    ∧ (errTruthy r.error = false →
        applyParsedResult env userId r st = ⟨st, [], none⟩
        ∧ (overrideResult r).error = some lowConfidenceMessage) := by
  have hlow : isLowConfidence r = true := by
    simp [isLowConfidence, hb, he, hc, hf]
  refine ⟨?_, ?_, ?_⟩
  · by_cases herr : errTruthy r.error = true
    · simp [applyParsedResult, herr]
    · have herr' : errTruthy r.error = false := by simpa using herr
      simp [applyParsedResult, herr', hlow]
  · intro ht
    simp [applyParsedResult, ht]
  · intro hfalse
    refine ⟨?_, rfl⟩
    simp [applyParsedResult, hfalse, hlow]

/-- Witness for C1 (amended): the low-final-score result is overridden with an
error string and nothing is persisted. -/
theorem claim_C1_witness :
    applyParsedResult envC1W "u" rC1LowFinal stPendW = ⟨stPendW, [], none⟩
    ∧ (overrideResult rC1LowFinal).error = some lowConfidenceMessage :=
  (claim_C1 envC1W "u" rC1LowFinal stPendW
    (by decide) (by decide) (by decide) (by decide)).2.2 rfl

/-! ### Claim C7 -/

theorem pyGet_eq_none_iff {α : Type} (m : List (String × α)) (k : String) :
    pyGet m k = none ↔ ∀ p ∈ m, p.1 ≠ k := by
  simp [pyGet, List.find?_eq_none]

theorem setAssoc_of_not_mem {α : Type} (m : List (String × α)) (k : String) (v : α)
    (h : pyGet m k = none) : setAssoc m k v = m ++ [(k, v)] := by
  have h' := (pyGet_eq_none_iff m k).mp h
  unfold setAssoc
  have hany : m.any (fun p => decide (p.1 = k)) = false := by
    rw [List.any_eq_false]
    intro p hp
    simpa using h' p hp
  rw [hany]
  simp

theorem pyGet_setAssoc_none {α : Type} (m : List (String × α)) (k : String) (v : α)
    (h : pyGet m k = none) : pyGet (setAssoc m k v) k = some v := by
  rw [setAssoc_of_not_mem m k v h]
  have hf : m.find? (fun p => decide (p.1 = k)) = none := by
    cases hf : m.find? (fun p => decide (p.1 = k)) with
    | none => rfl
    | some p => unfold pyGet at h; rw [hf] at h; simp at h
  unfold pyGet
  rw [List.find?_append, hf]
  simp

theorem pyGet_removeKey_self {α : Type} (m : List (String × α)) (k : String) :
    pyGet (removeKey m k) k = none := by
  have hnone : (m.filter (fun p => decide (p.1 ≠ k))).find? (fun p => decide (p.1 = k))
      = none := by
    rw [List.find?_eq_none]
    intro p hp
    have hm := List.of_mem_filter hp
    simp at hm ⊢
    exact hm
  simp [pyGet, removeKey, hnone]

/-- Claim C7: for a progress challenge with goal 5 not yet completed by the
user and with no stored progress, a first ledger run reporting +2 stores
progress 2, credits no bonus and completes nothing; a second run reporting +3
meets the goal, credits the bonus exactly once, adds the id to the completed
set exactly once, and removes the stored progress entry. -/
theorem claim_C7 (u : User) (cid : String) (bonus : Int) (r1 r2 : AIResult)
    (today1 today2 : Int) (u1 u2 : User)
    (hcid : cid ≠ "")
    (hnc : cid ∉ u.completedChallengeIds)
    (hnp : pyGet u.challengeProgress cid = none)
    (hr1 : r1.challengeUpdates = [⟨some cid, none, some 2⟩])
    (hr2 : r2.challengeUpdates = [⟨some cid, none, some 3⟩])
    (h1 : (update_stats_and_upload_transaction (some u) r1 [⟨some cid, some 5, bonus⟩]
            today1).userOut = some u1)
    (h2 : (update_stats_and_upload_transaction (some u1) r2 [⟨some cid, some 5, bonus⟩]
            today2).userOut = some u2) :
    pyGet u1.challengeProgress cid = some 2
    ∧ u1.totalPoints = u.totalPoints + r1.finalScore
    ∧ u1.completedChallengeIds = u.completedChallengeIds
    ∧ u2.totalPoints = u1.totalPoints + r2.finalScore + bonus
    ∧ cid ∈ u2.completedChallengeIds
    ∧ u2.completedChallengeIds.count cid = 1
    ∧ pyGet u2.challengeProgress cid = none := by
  have hstep1 : applyChallengeUpdate u.completedChallengeIds [⟨some cid, some 5, bonus⟩]
      ⟨[], 0, u.challengeProgress⟩ ⟨some cid, none, some 2⟩
      = ⟨[], 0, setAssoc u.challengeProgress cid 2⟩ := by
    simp [applyChallengeUpdate, challengeMapGet, hcid, hnc, hnp]
  simp only [update_stats_and_upload_transaction, hr1, List.foldl_cons, List.foldl_nil,
    hstep1, add_zero, if_true] at h1
  injection h1 with e1
  subst e1
  have hget2 : pyGet (setAssoc u.challengeProgress cid 2) cid = some 2 :=
    pyGet_setAssoc_none u.challengeProgress cid 2 hnp
  have hstep2 : applyChallengeUpdate u.completedChallengeIds [⟨some cid, some 5, bonus⟩]
      ⟨[], 0, setAssoc u.challengeProgress cid 2⟩ ⟨some cid, none, some 3⟩
      = ⟨[cid], bonus, removeKey (setAssoc u.challengeProgress cid 2) cid⟩ := by
    simp [applyChallengeUpdate, challengeMapGet, hcid, hnc, hget2]
  simp only [update_stats_and_upload_transaction, hr2, List.foldl_cons, List.foldl_nil,
    if_true, hstep2] at h2
  injection h2 with e2
  subst e2
  refine ⟨hget2, rfl, rfl, rfl, ?_, ?_, ?_⟩
  · simp [arrayUnion, hnc]
  · simp [arrayUnion, hnc, List.count_append, List.count_eq_zero.mpr hnc,
      List.count_singleton_self]
  · exact pyGet_removeKey_self (setAssoc u.challengeProgress cid 2) cid

def chProgW : Challenge := ⟨some "c1", some 5, 40⟩

def rProg2W : AIResult := ⟨5, 5, 2, 12, 0, none, [⟨some "c1", none, some 2⟩], none⟩

def rProg3W : AIResult := ⟨5, 5, 2, 12, 0, none, [⟨some "c1", none, some 3⟩], none⟩

def uC7a : User :=
  ((update_stats_and_upload_transaction (some userW) rProg2W [chProgW] 7).userOut).getD userW

def uC7b : User :=
  ((update_stats_and_upload_transaction (some uC7a) rProg3W [chProgW] 8).userOut).getD userW

/-- Witness for C7: in the concrete two-run scenario the challenge ends up
completed exactly once and its stored progress entry is gone. -/
theorem claim_C7_witness :
    uC7b.completedChallengeIds.count "c1" = 1 ∧ pyGet uC7b.challengeProgress "c1" = none :=
  (claim_C7 userW "c1" 40 rProg2W rProg3W 7 8 uC7a uC7b (by decide) (by decide) (by decide)
    rfl rfl (by decide) (by decide)).2.2.2.2.2

/-! ### Claim C8 -/

theorem nodupKeys_eq {α : Type} (l : List (String × α)) (hnd : (l.map Prod.fst).Nodup)
    (a : String) (b c : α) (hb : (a, b) ∈ l) (hc : (a, c) ∈ l) : b = c := by
  induction l with
  | nil => simp at hb
  | cons p rest ih =>
    simp only [List.map_cons, List.nodup_cons] at hnd
    rcases hnd with ⟨hp, hrest⟩
    simp only [List.mem_cons] at hb hc
    rcases hb with hb | hb
    · rcases hc with hc | hc
      · rw [← hb] at hc
        injection hc with e1 e2
        exact e2.symm
      · exfalso
        apply hp
        rw [← hb]
        exact List.mem_map.mpr ⟨(a, c), hc, rfl⟩
    · rcases hc with hc | hc
      · exfalso
        apply hp
        rw [← hc]
        exact List.mem_map.mpr ⟨(a, b), hb, rfl⟩
      · exact ih hrest hb hc

theorem acceptedMemberIds_mem (c : TeamDoc) (uid : String) :
    uid ∈ acceptedMemberIds c ↔ (uid, "accepted") ∈ c.members := by
  unfold acceptedMemberIds
  rw [List.mem_map]
  constructor
  · rintro ⟨p, hp, rfl⟩
    rcases List.mem_filter.mp hp with ⟨hm, hq⟩
    simp only [decide_eq_true_eq] at hq
    cases p with
    | mk p1 p2 =>
      have hq2 : p2 = "accepted" := hq
      rw [← hq2]
      exact hm
  · intro h
    exact ⟨(uid, "accepted"), List.mem_filter.mpr ⟨h, by simp⟩, rfl⟩

theorem acceptedMemberIds_nodup (c : TeamDoc) (h : (c.members.map Prod.fst).Nodup) :
    (acceptedMemberIds c).Nodup :=
  h.sublist ((List.filter_sublist c.members).map Prod.fst)

theorem length_filter_eq_one_of_nodup (uid : String) :
    ∀ (l : List String), l.Nodup → uid ∈ l →
      (l.filter (fun x => decide (x = uid))).length = 1 := by
  intro l
  induction l with
  | nil => intro _ h; simp at h
  | cons x rest ih =>
    intro hnd hmem
    rcases List.nodup_cons.mp hnd with ⟨hx, hrest⟩
    rcases List.mem_cons.mp hmem with rfl | hmem
    · have hnone : rest.filter (fun y => decide (y = uid)) = [] := by
        rw [List.filter_eq_nil_iff]
        intro y hy
        simp only [decide_eq_true_eq]
        intro hyu
        exact hx (hyu ▸ hy)
      simp [List.filter_cons, hnone]
    · have hxu : ¬(x = uid) := fun e => hx (e ▸ hmem)
      simp only [List.filter_cons, decide_eq_true_eq]
      rw [if_neg hxu]
      exact ih hrest hmem

theorem sum_map_const_int {α : Type} (l : List α) (c : Int) :
    (l.map (fun _ => c)).sum = (l.length : Int) * c := by
  induction l with
  | nil => simp
  | cons x rest ih =>
    simp only [List.map_cons, List.sum_cons, ih, List.length_cons]
    push_cast
    ring

/-- The share each accepted member receives on completion
(`total_bonus // member_count`, tasks.py:273). -/
def perMemberShare (c : TeamDoc) : Int :=
  Int.fdiv c.bonusPoints ((acceptedMemberIds c).length : Int)

/-- The point-award tasks dispatched on completion (tasks.py:277-278). -/
def payoutList (c : TeamDoc) : List (String × Int) :=
  (acceptedMemberIds c).map (fun uid => (uid, perMemberShare c))

/-- Claim C8: when the first team challenge of the loop completes with m > 0
accepted members, exactly one point-award task of amount bonus fdiv m is
dispatched per accepted member, a member whose status is not "accepted"
receives no payout, and the total dispatched is bonus minus the division
remainder (the remainder goes to no one). -/
theorem claim_C8 (st : PipelineState) (teamId : String) (c : TeamDoc) (rest : List String)
    (pmap : List (String × Int)) (oid : String) (cnt : Int)
    (hteam : pyGet st.teams teamId = some c)
    (hoid : c.originalChallengeId = some oid)
    (hactive : c.status = "active")
    (hcnt : pyGetLast pmap oid = some cnt)
    (hgoal : c.progressGoal.getD 999 ≤ c.currentProgress + cnt)
    (hkeys : (c.members.map Prod.fst).Nodup)
    (hm : acceptedMemberIds c ≠ []) :
    (teamChallengeLoop pmap (teamId :: rest) st).payouts = st.payouts ++ payoutList c
    ∧ (∀ uid, uid ∈ acceptedMemberIds c →
        ((payoutList c).filter (fun p => decide (p.1 = uid))).length = 1)
    ∧ (∀ uid status2, (uid, status2) ∈ c.members → status2 ≠ "accepted" →
        ∀ amt, (uid, amt) ∉ payoutList c)
    ∧ ((payoutList c).map (fun p => p.2)).sum
        = c.bonusPoints - Int.fmod c.bonusPoints ((acceptedMemberIds c).length : Int) := by
  refine ⟨?_, ?_, ?_, ?_⟩
  · have hupd : update_progress_in_transaction (some c) pmap
        = ⟨some { c with currentProgress := c.currentProgress + cnt, status := "completed" },
            some c⟩ := by
      simp [update_progress_in_transaction, hoid, hactive, hcnt, if_pos hgoal]
    have hloop : teamChallengeLoop pmap (teamId :: rest) st
        = teamPayout teamId c
            { st with
              teams := setAssoc st.teams teamId
                { c with currentProgress := c.currentProgress + cnt, status := "completed" } } := by
      simp only [teamChallengeLoop, hteam, hupd]
    rw [hloop]
    simp only [teamPayout]
    rw [if_pos (List.length_pos.mpr hm)]
    rfl
  · intro uid hmem
    unfold payoutList
    rw [List.filter_map, List.length_map]
    have hcomp : ((fun p => decide (p.1 = uid)) ∘ (fun uid2 => (uid2, perMemberShare c)))
        = fun x => decide (x = uid) := by
      funext x; simp
    rw [hcomp]
    exact length_filter_eq_one_of_nodup uid (acceptedMemberIds c)
      (acceptedMemberIds_nodup c hkeys) hmem
  · intro uid status2 hmem hstatus amt hpay
    unfold payoutList at hpay
    rcases List.mem_map.mp hpay with ⟨uid2, hu2, heq⟩
    have e1 : uid2 = uid := congrArg Prod.fst heq
    subst e1
    have hacc := (acceptedMemberIds_mem c uid2).mp hu2
    exact hstatus (nodupKeys_eq c.members hkeys uid2 status2 "accepted" hmem hacc)
  · unfold payoutList
    rw [List.map_map]
    have hcomp : ((fun p : String × Int => p.2) ∘ (fun uid2 => (uid2, perMemberShare c)))
        = fun _ => perMemberShare c := rfl
    rw [hcomp, sum_map_const_int]
    have hdm := Int.fdiv_add_fmod c.bonusPoints ((acceptedMemberIds c).length : Int)
    unfold perMemberShare
    linarith

def teamDocW : TeamDoc :=
  ⟨some "c1", "active", 3, some 5,
    [("alice", "accepted"), ("bob", "accepted"), ("carol", "accepted"), ("dave", "pending")],
    100⟩

def stTeamW : PipelineState :=
  ⟨some jobPendingW, [("u", userW)], [], [("t1", teamDocW)], true, false, false, 0, []⟩

/-- Witness for C8: bonus 100 split among 3 accepted members dispatches the
payout list (33 each); the pending member gets nothing. -/
theorem claim_C8_witness :
    (teamChallengeLoop [("c1", 2)] ["t1"] stTeamW).payouts
      = stTeamW.payouts ++ payoutList teamDocW :=
  (claim_C8 stTeamW "t1" teamDocW [] [("c1", 2)] "c1" 2 rfl rfl rfl (by decide) (by decide)
    (by decide) (by decide)).1

/-! ### Claims C9 and C4 -/

theorem analyze_none (env : Env) (userId : String) (st : PipelineState)
    (hj : st.job = none) :
    analyze_video_with_gemini env userId st = ⟨st, [], false⟩ := by
  unfold analyze_video_with_gemini
  rw [hj]

theorem analyze_eq_runMain (env : Env) (userId : String) (st : PipelineState) (j : Job)
    (hj : st.job = some j) (hp : j.status = JobStatus.pending) :
    analyze_video_with_gemini env userId st
      = runMain env userId { st with job := some { j with status := JobStatus.processing } } := by
  unfold analyze_video_with_gemini
  rw [hj]
  simp [hp]

/-- Claim C9: when the job is claimable but every JSON-parse fallback fails,
the run marks the job FAILED with the parse error message, moves the source
media to the failed area, updates nothing else except the rotation cursor, and
any redelivery of the task is a complete no-op (the analysis is never
re-attempted and no record changes again). -/
theorem claim_C9 (env : Env) (userId : String) (st : PipelineState) (j : Job) (idx : Nat)
    (hj : st.job = some j) (hp : j.status = JobStatus.pending)
    (hsrc : st.sourceBlob = true) (hredis : env.redisOk = true)
    (hrot : (geminiKeyLoop env.numKeys st.cursor env.keySucceeds).success = some idx)
    (hparse : parseChain env.jsonParse env.responseText = none) :
    analyze_video_with_gemini env userId st =
      ⟨{ st with
          job := some { j with
            status := JobStatus.failed
            errorMessage := some "Could not parse AI response as JSON." }
          cursor := idx
          sourceBlob := false
          failedBlob := true },
        [JobStatus.processing, JobStatus.failed], true⟩
    ∧ (∀ env2 : Env,
        analyze_video_with_gemini env2 userId (analyze_video_with_gemini env userId st).state
          = ⟨(analyze_video_with_gemini env userId st).state, [], false⟩) := by
  have hrun : analyze_video_with_gemini env userId st =
      ⟨{ st with
          job := some { j with
            status := JobStatus.failed
            errorMessage := some "Could not parse AI response as JSON." }
          cursor := idx
          sourceBlob := false
          failedBlob := true },
        [JobStatus.processing, JobStatus.failed], true⟩ := by
    rw [analyze_eq_runMain env userId st j hj hp]
    unfold runMain
    simp [hsrc, hredis, hrot, hparse, taskFail]
  refine ⟨hrun, ?_⟩
  intro env2
  rw [hrun]
  exact run_guard_noop env2 userId _ _ rfl (fun h => nomatch h)

def envParseFailW : Env :=
  ⟨7, 4, fun _ => true, "no json here", fun _ => none, true, false, false, false, false⟩

/-- Witness for C9: a run whose abstract parser rejects every candidate string
fails the job, moves the media and is a no-op on redelivery. -/
theorem claim_C9_witness :
    analyze_video_with_gemini envParseFailW "u" stPendW =
      ⟨{ stPendW with
          job := some { jobPendingW with
            status := JobStatus.failed
            errorMessage := some "Could not parse AI response as JSON." }
          cursor := 0
          sourceBlob := false
          failedBlob := true },
        [JobStatus.processing, JobStatus.failed], true⟩ :=
  (claim_C9 envParseFailW "u" stPendW jobPendingW 0 rfl rfl rfl rfl rfl rfl).1

theorem applyParsedResult_writes (env : Env) (userId : String) (r : AIResult)
    (st : PipelineState) :
    (applyParsedResult env userId r st).writes = []
    ∨ (applyParsedResult env userId r st).writes = [JobStatus.completed] := by
  unfold applyParsedResult
  split
  · exact Or.inr rfl
  · split
    · exact Or.inl rfl
    · split
      · exact Or.inr rfl
      · split
        · exact Or.inr rfl
        · exact Or.inr rfl

theorem applyParsedResult_exc_none (env : Env) (userId : String) (r : AIResult)
    (st : PipelineState)
    (halg : env.algoliaSyncRaises = false) (hteam : env.teamOpsRaises = false) :
    (applyParsedResult env userId r st).exc = none := by
  unfold applyParsedResult
  split
  · rfl
  · split
    · rfl
    · rw [if_neg (by simp [halg]), if_neg (by simp [hteam])]

theorem runMain_trace_ok (env : Env) (userId : String) (st : PipelineState)
    (halg : env.algoliaSyncRaises = false) (hteam : env.teamOpsRaises = false)
    (hget : env.finalGetRaises = false) (hstorage : env.storageMoveRaises = false) :
    traceTerminalFinal (runMain env userId st).statusWrites = true := by
  unfold runMain
  by_cases h1 : st.sourceBlob = false
  · simp [h1, taskFail, traceTerminalFinal, isTerminal]
  · by_cases h2 : env.redisOk = false
    · simp [h1, h2, taskFail, traceTerminalFinal, isTerminal]
    · cases hrot : (geminiKeyLoop env.numKeys st.cursor env.keySucceeds).success with
      | none => simp [h1, h2, hrot, taskFail, traceTerminalFinal, isTerminal]
      | some idx =>
        cases hpc : parseChain env.jsonParse env.responseText with
        | none => simp [h1, h2, hrot, hpc, taskFail, traceTerminalFinal, isTerminal]
        | some r =>
          have hexc := applyParsedResult_exc_none env userId r
            { st with sourceBlob := true, cursor := idx } halg hteam
          rcases applyParsedResult_writes env userId r
              { st with sourceBlob := true, cursor := idx } with hw | hw <;>
            simp [h1, h2, hrot, hpc, hexc, hget, hstorage, hw, taskFail,
              traceTerminalFinal, isTerminal]

def rNormalW : AIResult := ⟨5, 5, 2, 12, 0, none, [], none⟩

def envStorageFailW : Env :=
  ⟨7, 4, fun _ => true, "x", fun _ => some rNormalW, true, false, false, false, true⟩

def envAlgoliaFailW : Env :=
  ⟨7, 4, fun _ => true, "x", fun _ => some rNormalW, true, true, false, false, false⟩

/-- Counterexample to C4 as stated, at two inputs: when a post-commit step of
the same try block raises after the ledger transaction already marked the job
COMPLETED — the GCS copy to the processed area (tasks.py:502-505) in the first
run, the re-raising Algolia sync (tasks.py:493) in the second, where the
storage move itself never raises — the catch-all failure handler overwrites
the terminal COMPLETED status with FAILED within the same run. -/
theorem claim_C4_counterexample :
    ((analyze_video_with_gemini envStorageFailW "u" stPendW).statusWrites
        = [JobStatus.processing, JobStatus.completed, JobStatus.failed]
      ∧ traceTerminalFinal
          (analyze_video_with_gemini envStorageFailW "u" stPendW).statusWrites = false
      ∧ (analyze_video_with_gemini envStorageFailW "u" stPendW).state.job
        = some ⟨JobStatus.failed, some rNormalW, some "Failed to copy blob to processed."⟩)
    ∧ (envAlgoliaFailW.storageMoveRaises = false
      ∧ (analyze_video_with_gemini envAlgoliaFailW "u" stPendW).statusWrites
          = [JobStatus.processing, JobStatus.completed, JobStatus.failed]
      ∧ traceTerminalFinal
          (analyze_video_with_gemini envAlgoliaFailW "u" stPendW).statusWrites = false
      ∧ (analyze_video_with_gemini envAlgoliaFailW "u" stPendW).state.job
        = some ⟨JobStatus.failed, some rNormalW, some "Algolia sync failed."⟩) := by
  decide

/-- Claim C4, amended: a replay never changes a terminal job's status (the
claim guard aborts), and within a single run no status write follows a
terminal write provided none of the post-commit side effects raises — the
Algolia sync, the team-challenge Firestore operations, the final upload
re-read, and the storage move all sit inside the task's try block after the
COMPLETED commit; when any of them raises, the failure handler overwrites
COMPLETED with FAILED (the counterexamples above). -/
theorem claim_C4 (env : Env) (userId : String) (st : PipelineState)
    (halg : env.algoliaSyncRaises = false) (hteam : env.teamOpsRaises = false)
    (hget : env.finalGetRaises = false) (hstorage : env.storageMoveRaises = false) :
    traceTerminalFinal (analyze_video_with_gemini env userId st).statusWrites = true
    ∧ (∀ (env2 : Env) (j : Job), st.job = some j → isTerminal j.status = true →
        analyze_video_with_gemini env2 userId st = ⟨st, [], false⟩) := by
  constructor
  · cases hj : st.job with
    | none =>
      rw [analyze_none env userId st hj]
      rfl
    | some j =>
      by_cases hp : j.status = JobStatus.pending
      · rw [analyze_eq_runMain env userId st j hj hp]
        exact runMain_trace_ok env userId _ halg hteam hget hstorage
      · rw [run_guard_noop env userId st j hj hp]
        rfl
  · intro env2 j hj ht
    refine run_guard_noop env2 userId st j hj ?_
    intro hpend
    rw [hpend] at ht
    exact absurd ht (by decide)

def envNoFailW : Env :=
  ⟨7, 4, fun _ => true, "x", fun _ => some rNormalW, true, false, false, false, false⟩

/-- Witness for C4 (amended): with every post-commit side effect succeeding,
the write trace of a full successful run respects terminal finality. -/
theorem claim_C4_witness :
    traceTerminalFinal (analyze_video_with_gemini envNoFailW "u" stPendW).statusWrites = true :=
  (claim_C4 envNoFailW "u" stPendW rfl rfl rfl rfl).1
